import Mathlib

/-
Shallow embedding of the collector core of the repository:
  jun_collect.py (parsing_interfaces, parsing_inet3, parsing_mpls0, rpc_devices accessors)
  main.py        (process_exporter, collect_and_write_data)

Python dicts are modelled as association lists with insert-overwrite-in-place
semantics; Python exceptions as an Except monad; lxml element trees as a
simple tag/text/children tree; raw RPC payloads as either well-formed trees
or a malformed blob on which etree.fromstring raises.
-/

namespace JunCollect

/-! Python string primitives, as used by the source: str.strip(), str.split(),
str.startswith, str.replace("Push", ""). -/

def pyWs (c : Char) : Bool :=
  c == ' ' || c == '\t' || c == '\n' || c == '\r' || c == Char.ofNat 11 || c == Char.ofNat 12

def pyStripL (l : List Char) : List Char :=
  (((l.dropWhile pyWs).reverse).dropWhile pyWs).reverse

def pyStrip (s : String) : String :=
  ⟨pyStripL s.data⟩

def pySplitGo : List Char → List Char → List (List Char)
  | [], acc => if acc = [] then [] else [acc.reverse]
  | c :: rest, acc =>
    if pyWs c then
      if acc = [] then pySplitGo rest [] else acc.reverse :: pySplitGo rest []
    else pySplitGo rest (c :: acc)

def pySplit (s : String) : List String :=
  (pySplitGo s.data []).map (fun l => ⟨l⟩)

def pyStartswith (s pre : String) : Bool :=
  s.data.take pre.data.length == pre.data

/-- str.replace("Push", ""): removes every non-overlapping occurrence of
"Push", scanning left to right. The fuel argument (instantiated with the
length of the list, enough for the whole scan) only makes the recursion
structural. -/
def pushReplaceFuel : Nat → List Char → List Char
  | 0, _ => []
  | _ + 1, [] => []
  | fuel + 1, c :: rest =>
    if c = 'P' ∧ rest.take 3 = ['u', 's', 'h'] then pushReplaceFuel fuel (rest.drop 3)
    else c :: pushReplaceFuel fuel rest

def pushReplace (l : List Char) : List Char :=
  pushReplaceFuel l.length l

/-! lxml element-tree model. Children are a bespoke list type so that the
document traversal is mutually structurally recursive. -/

mutual
inductive XmlElem : Type where
  | node : String → Option String → XmlList → XmlElem
inductive XmlList : Type where
  | nil : XmlList
  | cons : XmlElem → XmlList → XmlList
end

def XmlList.ofList : List XmlElem → XmlList
  | [] => .nil
  | e :: r => .cons e (XmlList.ofList r)

def XmlList.toList : XmlList → List XmlElem
  | .nil => []
  | .cons e r => e :: r.toList

def XmlElem.tag : XmlElem → String
  | .node t _ _ => t

def XmlElem.text : XmlElem → Option String
  | .node _ x _ => x

def XmlElem.children : XmlElem → List XmlElem
  | .node _ _ c => c.toList

/- All strict descendants of an element, in document order. -/
mutual
def descElem : XmlElem → List XmlElem
  | .node _ _ cs => descList cs
def descList : XmlList → List XmlElem
  | .nil => []
  | .cons e rest => e :: (descElem e ++ descList rest)
end

/-- elem.find(tag): first direct child with the given tag. -/
def XmlElem.find (e : XmlElem) (tagname : String) : Option XmlElem :=
  e.children.find? (fun c => c.tag = tagname)

/-- elem.findtext(tag, default=d): text of the first matching direct child;
the default when it is absent; "" when it is present with no text. -/
def XmlElem.findtext (e : XmlElem) (tagname dflt : String) : String :=
  match e.find tagname with
  | none => dflt
  | some c => c.text.getD ""

/-- elem.findall(".//tag"): every strict descendant with the given tag. -/
def findall_desc (e : XmlElem) (tagname : String) : List XmlElem :=
  (descElem e).filter (fun c => c.tag = tagname)

/-- elem.findall("tag"): direct children with the given tag. -/
def findall_child (e : XmlElem) (tagname : String) : List XmlElem :=
  e.children.filter (fun c => c.tag = tagname)

/-! Python exceptions and raw payloads. -/

inductive PyError : Type where
  | xmlSyntaxError
  | attributeError
  | indexError
  | keyError
deriving DecidableEq

/-- A raw RPC payload: either bytes that parse into a tree or bytes on which
etree.fromstring raises XMLSyntaxError. -/
inductive RawXml : Type where
  | malformed
  | wellFormed (t : XmlElem)

def etree_fromstring : RawXml → Except PyError XmlElem
  | .malformed => .error .xmlSyntaxError
  | .wellFormed t => .ok t

/-! Python dict model: association list, insert overwrites in place. -/

def dget {V : Type} (m : List (String × V)) (k : String) : Option V :=
  (m.find? (fun p => p.1 = k)).map (fun p => p.2)

def dinsert {V : Type} (k : String) (v : V) : List (String × V) → List (String × V)
  | [] => [(k, v)]
  | (k', v') :: rest => if k' = k then (k, v) :: rest else (k', v') :: dinsert k v rest

def ddel {V : Type} (k : String) : List (String × V) → List (String × V)
  | [] => []
  | (k', v') :: rest => if k' = k then rest else (k', v') :: ddel k rest

/-- A fold that propagates the first raised exception, like a Python for-loop
whose body may raise. -/
def foldE {α β ε : Type} (f : α → β → Except ε α) : α → List β → Except ε α
  | a, [] => .ok a
  | a, b :: bs =>
    match f a b with
    | .error e => .error e
    | .ok a' => foldE f a' bs

/-! parsing_interfaces (jun_collect.py lines 71-103). -/

structure IfaceRec : Type where
  name : String
  speed : String
  description : String
deriving DecidableEq

/-- elem.text.strip(): AttributeError when the element has no text. -/
def textStrip (e : XmlElem) : Except PyError String :=
  match e.text with
  | none => .error .attributeError
  | some s => .ok (pyStrip s)

def iface_description (logical : XmlElem) : Except PyError String :=
  match logical.find "description" with
  | none => .ok ""
  | some e => textStrip e

def iface_speed (physical : XmlElem) : Except PyError String :=
  match physical.find "speed" with
  | none => .ok ""
  | some e => textStrip e

def iface_logical_step (speed : String) (m : List (String × IfaceRec)) (logical : XmlElem) :
    Except PyError (List (String × IfaceRec)) :=
  match iface_description logical with
  | .error e => .error e
  | .ok description =>
    match logical.find "name", logical.find "snmp-index" with
    | some ne, some se =>
      match textStrip ne with
      | .error e => .error e
      | .ok name =>
        match textStrip se with
        | .error e => .error e
        | .ok snmp_index => .ok (dinsert snmp_index ⟨name, speed, description⟩ m)
    | _, _ => .ok m

def iface_physical_step (m : List (String × IfaceRec)) (physical : XmlElem) :
    Except PyError (List (String × IfaceRec)) :=
  match iface_speed physical with
  | .error e => .error e
  | .ok speed => foldE (iface_logical_step speed) m (findall_child physical "logical-interface")

def parsing_interfaces (xml_content : Option RawXml) :
    Except PyError (List (String × IfaceRec)) :=
  match xml_content with
  | none => .ok []
  | some raw =>
    match etree_fromstring raw with
    | .error e => .error e
    | .ok tree => foldE iface_physical_step [] (findall_desc tree "physical-interface")

/-! parsing_inet3 (jun_collect.py lines 111-133). -/

/-- label = strip(raw); if label.startswith("Push"): label = label.replace("Push", "").strip() -/
def inet3_label (raw : String) : String :=
  let label := pyStrip raw
  if pyStartswith label "Push" then pyStrip ⟨pushReplace label.data⟩ else label

def inet3_nh_step (m : List (String × String)) (nh : XmlElem) : List (String × String) :=
  let via := pyStrip (nh.findtext "via" "")
  if via = "" then m
  else dinsert via (inet3_label (nh.findtext "mpls-label" "")) m

def inet3_rt_step (m : List (String × List (String × String))) (rt : XmlElem) :
    List (String × List (String × String)) :=
  let destination : String := ⟨(rt.findtext "rt-destination" "").data.takeWhile (fun c => c ≠ '/')⟩
  if destination = "" then m
  else dinsert destination ((findall_desc rt "nh").foldl inet3_nh_step []) m

def parsing_inet3 (xml_content : Option RawXml) :
    Except PyError (List (String × List (String × String))) :=
  match xml_content with
  | none => .ok []
  | some raw =>
    match etree_fromstring raw with
    | .error e => .error e
    | .ok tree => .ok ((findall_desc tree "rt").foldl inet3_rt_step [])

/-! parsing_mpls0 (jun_collect.py lines 141-174). -/

structure ActionLabel : Type where
  action : String
  label : String
deriving DecidableEq

def mpls0_nh_step (m : List (String × ActionLabel)) (nh : XmlElem) :
    Except PyError (List (String × ActionLabel)) :=
  let via := pyStrip (nh.findtext "via" "")
  if via = "" then .ok m
  else
    let label := pyStrip (nh.findtext "mpls-label" "")
    if label = "" then .ok m
    else
      match pySplit label with
      | [] => .error .indexError
      | a :: rest => .ok (dinsert via ⟨a, rest.headD ""⟩ m)

def mpls0_rt_step (m : List (String × List (String × ActionLabel))) (rt : XmlElem) :
    Except PyError (List (String × List (String × ActionLabel))) :=
  let destination := rt.findtext "rt-destination" ""
  if destination = "" then .ok m
  else
    match foldE mpls0_nh_step [] (findall_desc rt "nh") with
    | .error e => .error e
    | .ok inner =>
      if inner = [] then .ok (ddel destination m) else .ok (dinsert destination inner m)

def parsing_mpls0 (xml_content : Option RawXml) :
    Except PyError (List (String × List (String × ActionLabel))) :=
  match xml_content with
  | none => .ok []
  | some raw =>
    match etree_fromstring raw with
    | .error e => .error e
    | .ok tree => foldE mpls0_rt_step [] (findall_desc tree "rt")

/-! main.py: per-device pipeline and orchestration.

rpc_devices stores the three raw payloads for a host in the responces cache,
or leaves/clears the host's slot on any transport/session error (the except
block catches everything). A cycle's observable transport outcome per host is
therefore: three raw payloads, or nothing. We model it as a function from the
host address to an optional payload triple. -/

structure DeviceRaw : Type where
  interfaces : RawXml
  nhs : RawXml
  mpls_labels : RawXml

def Transport : Type := String → Option DeviceRaw

structure Connection : Type where
  device : String
  interface : String
deriving DecidableEq

structure DevMeta : Type where
  name : String
  site : String
  regions : List String
deriving DecidableEq

structure EnrichedIface : Type where
  name : String
  speed : String
  description : String
  connection : Connection
deriving DecidableEq

structure NhEnriched : Type where
  name : String
  site : String
  regions : List String
  labels : List (String × String)
deriving DecidableEq

structure ExporterResult : Type where
  interfaces : List (String × EnrichedIface)
  nexthops : List (String × NhEnriched)
  mpls_labels : List (String × List (String × ActionLabel))
deriving DecidableEq

def get_interface_info (T : Transport) (host : String) :
    Except PyError (List (String × IfaceRec)) :=
  parsing_interfaces ((T host).map (fun r => r.interfaces))

def get_nexthops (T : Transport) (host : String) :
    Except PyError (List (String × List (String × String))) :=
  parsing_inet3 ((T host).map (fun r => r.nhs))

def get_mpls_labels (T : Transport) (host : String) :
    Except PyError (List (String × List (String × ActionLabel))) :=
  parsing_mpls0 ((T host).map (fun r => r.mpls_labels))

/-- main.py lines 31-40: connection = connections.get(device_name, {}).get(if_name);
attach it when found, the explicit empty pair otherwise. -/
def enrich_interfaces (connections : List (String × List (String × Connection)))
    (device_name : String) (if_data : List (String × IfaceRec)) :
    List (String × EnrichedIface) :=
  if_data.map (fun p =>
    (p.1, { name := p.2.name, speed := p.2.speed, description := p.2.description,
            connection := (dget ((dget connections device_name).getD []) p.2.name).getD ⟨"", ""⟩ }))

/-- main.py lines 43-50: dev = exporters.get(nh, {}); defaults "", "", []. -/
def enrich_nexthops (exporters : List (String × DevMeta))
    (if_nhs : List (String × List (String × String))) : List (String × NhEnriched) :=
  if_nhs.map (fun p =>
    let dev := (dget exporters p.1).getD ⟨"", "", []⟩
    (p.1, ⟨dev.name, dev.site, dev.regions, p.2⟩))

/-- main.py lines 23-62: the per-device pipeline; every uncaught exception is
re-raised past the per-device boundary. -/
def process_exporter (T : Transport) (exporter : String)
    (connections : List (String × List (String × Connection)))
    (exporters : List (String × DevMeta)) :
    Except PyError (String × ExporterResult) :=
  match get_interface_info T exporter with
  | .error e => .error e
  | .ok if_data =>
    match dget exporters exporter with
    | none => .error .keyError
    | some dev =>
      let if_enriched := enrich_interfaces connections dev.name if_data
      match get_nexthops T exporter with
      | .error e => .error e
      | .ok if_nhs =>
        let nhs := enrich_nexthops exporters if_nhs
        match get_mpls_labels T exporter with
        | .error e => .error e
        | .ok mpls => .ok (exporter, ⟨if_enriched, nhs, mpls⟩)

structure FullExporter : Type where
  name : String
  site : String
  regions : List String
  interfaces : List (String × EnrichedIface)
  nexthops : List (String × NhEnriched)
  mpls_labels : List (String × List (String × ActionLabel))
deriving DecidableEq

def mkFull (meta : DevMeta) (r : ExporterResult) : FullExporter :=
  ⟨meta.name, meta.site, meta.regions, r.interfaces, r.nexthops, r.mpls_labels⟩

def collect_step (T : Transport) (connections : List (String × List (String × Connection)))
    (exporters : List (String × DevMeta)) (acc : List (String × FullExporter))
    (p : String × DevMeta) : Except PyError (List (String × FullExporter)) :=
  match process_exporter T p.1 connections exporters with
  | .error e => .error e
  | .ok kr => .ok (acc ++ [(kr.1, mkFull p.2 kr.2)])

/-- main.py lines 64-85: fan the pipeline out over every exporter, then attach
each returned result to its exporter's entry. The thread-pool fan-out is
modelled sequentially: the pipelines are independent, any future whose
pipeline raised re-raises the exception out of collect_and_write_data, and the
assembled data is keyed per exporter either way. -/
def collect_and_write_data (T : Transport)
    (connections : List (String × List (String × Connection)))
    (exporters : List (String × DevMeta)) : Except PyError (List (String × FullExporter)) :=
  foldE (collect_step T connections exporters) [] exporters

/-! Concrete inputs used by the claim theorems, their witnesses and
counterexamples. -/

def el (t : String) (x : Option String) (c : List XmlElem) : XmlElem :=
  .node t x (XmlList.ofList c)

/-- Modelled from the claim's wording for the inet.3 label transform: the raw
trimmed mpls-label text with only a leading "Push" keyword and surrounding
whitespace stripped if present, the remainder kept as a raw string. -/
def specLabelLeadingOnly (raw : String) : String :=
  let label := pyStrip raw
  if pyStartswith label "Push" then pyStrip ⟨label.data.drop 4⟩ else label

def c1ErrTree : XmlElem :=
  el "rpc-reply" none [el "physical-interface" none [el "speed" none []]]

def c2IfPayload : XmlElem :=
  el "rpc-reply" none [
    el "interface-information" none [
      el "physical-interface" none [
        el "name" (some "ge-0/0/0") [],
        el "speed" (some "1000mbps") [],
        el "logical-interface" none [
          el "name" (some "ge-0/0/0.0") [],
          el "snmp-index" (some "512") [],
          el "description" (some "to R9") []
        ]
      ]
    ]
  ]

def c2NhPayload : XmlElem :=
  el "rpc-reply" none [
    el "rt" none [
      el "rt-destination" (some "10.0.0.9/32") [],
      el "nh" none [
        el "via" (some "10.1.0.2") [],
        el "mpls-label" (some "Push 16") []
      ]
    ]
  ]

def c2MplsPayload : XmlElem :=
  el "rpc-reply" none [
    el "rt" none [
      el "rt-destination" (some "16") [],
      el "nh" none [
        el "via" (some "10.1.0.2") [],
        el "mpls-label" (some "Pop") []
      ]
    ]
  ]

def c2raw : DeviceRaw := ⟨.wellFormed c2IfPayload, .wellFormed c2NhPayload, .wellFormed c2MplsPayload⟩

/-- Transport where device 10.0.0.9 is unreachable and 10.0.0.1 answers. -/
def c2T : Transport := fun h => if h = "10.0.0.1" then some c2raw else none

/-- Transport where device 10.0.0.9 answers with payloads etree cannot parse. -/
def c2Tbad : Transport :=
  fun h => if h = "10.0.0.1" then some c2raw else some ⟨.malformed, .malformed, .malformed⟩

def c2C : List (String × List (String × Connection)) :=
  [("R1", [("ge-0/0/0.0", ⟨"R9", "xe-0/0/1"⟩)])]

def c2E : List (String × DevMeta) :=
  [("10.0.0.1", ⟨"R1", "site1", ["emea"]⟩), ("10.0.0.9", ⟨"R9", "site9", []⟩)]

def c3Pl : XmlElem :=
  el "rpc-reply" none [
    el "rt" none [
      el "rt-destination" (some "10.1.1.1/32") [],
      el "nh" none [
        el "via" (some " 10.0.0.2 ") [],
        el "mpls-label" (some "Push 16") []
      ]
    ]
  ]

def c4Pl : XmlElem :=
  el "rpc-reply" none [
    el "rt" none [
      el "rt-destination" (some "100004") [],
      el "nh" none [
        el "via" (some "10.0.4.2") [],
        el "mpls-label" (some "Swap 44") []
      ]
    ]
  ]

def c5Pl : XmlElem :=
  el "rpc-reply" none [
    el "rt" none [
      el "rt-destination" (some "1.1.1.1/32") [],
      el "nh" none [
        el "via" (some "10.0.0.2") [],
        el "mpls-label" (some "Push 100 Push") []
      ]
    ]
  ]

def c5Pl2 : XmlElem :=
  el "rpc-reply" none [
    el "rt" none [
      el "rt-destination" (some "1.1.1.1/32") [],
      el "nh" none [
        el "via" (some "10.0.0.2") [],
        el "mpls-label" (some "Push 100") []
      ]
    ]
  ]

def c5Nh : XmlElem :=
  el "nh" none [
    el "via" (some "10.0.0.2") [],
    el "mpls-label" (some "Push 100") []
  ]

def c6PlSwap : XmlElem :=
  el "rpc-reply" none [
    el "rt" none [
      el "rt-destination" (some "100001") [],
      el "nh" none [
        el "via" (some "10.0.0.2") [],
        el "mpls-label" (some "Swap 300") []
      ]
    ]
  ]

def c6PlPop : XmlElem :=
  el "rpc-reply" none [
    el "rt" none [
      el "rt-destination" (some "100002") [],
      el "nh" none [
        el "via" (some "10.9.9.9") [],
        el "mpls-label" (some "  ") []
      ],
      el "nh" none [
        el "via" (some "10.0.0.3") [],
        el "mpls-label" (some "Pop") []
      ]
    ]
  ]

def c6Nh : XmlElem :=
  el "nh" none [
    el "via" (some "10.0.0.2") [],
    el "mpls-label" (some "Swap 300") []
  ]

def c7Pl : XmlElem :=
  el "rpc-reply" none [
    el "physical-interface" none [
      el "logical-interface" none [
        el "name" (some "  ") [],
        el "snmp-index" (some "7") []
      ]
    ]
  ]

def c7L : XmlElem :=
  el "logical-interface" none [
    el "name" (some " ge-0/0/0.16 ") [],
    el "snmp-index" (some " 516 ") []
  ]

def c10PlInet : XmlElem :=
  el "rpc-reply" none [
    el "rt" none [
      el "rt-destination" (some "10.0.0.1/32") [],
      el "nh" none [
        el "via" (some "1.1.1.1") [],
        el "mpls-label" (some "Push 16") []
      ]
    ],
    el "rt" none [
      el "rt-destination" (some "10.0.0.1/32") [],
      el "nh" none [
        el "via" (some "2.2.2.2") []
      ]
    ]
  ]

def c10PlInetEmpty : XmlElem :=
  el "rpc-reply" none [
    el "rt" none [
      el "rt-destination" (some "10.0.0.1/32") [],
      el "nh" none [
        el "via" (some "1.1.1.1") [],
        el "mpls-label" (some "Push 16") []
      ]
    ],
    el "rt" none [
      el "rt-destination" (some "10.0.0.1/32") []
    ]
  ]

def c10PlMpls : XmlElem :=
  el "rpc-reply" none [
    el "rt" none [
      el "rt-destination" (some "100001") [],
      el "nh" none [
        el "via" (some "1.1.1.1") [],
        el "mpls-label" (some "Swap 300") []
      ]
    ],
    el "rt" none [
      el "rt-destination" (some "100001") []
    ]
  ]

def c10RtLater : XmlElem :=
  el "rt" none [
    el "rt-destination" (some "10.0.0.1/32") [],
    el "nh" none [
      el "via" (some "2.2.2.2") []
    ]
  ]

def c10RtEmpty : XmlElem :=
  el "rt" none [
    el "rt-destination" (some "100001") []
  ]

/-! Helper lemmas. -/

lemma mem_dinsert {V : Type} {k : String} {v : V} :
    ∀ {m : List (String × V)} {q : String × V}, q ∈ dinsert k v m → q = (k, v) ∨ q ∈ m := by
  intro m
  induction m with
  | nil =>
    intro q hq
    simp [dinsert] at hq
    exact Or.inl hq
  | cons p rest ih =>
    intro q hq
    by_cases hk : p.1 = k
    · simp [dinsert, hk] at hq
      rcases hq with h | h
      · exact Or.inl (by simp [h])
      · exact Or.inr (List.mem_cons_of_mem _ h)
    · simp only [dinsert, hk, if_false] at hq
      rcases List.mem_cons.1 hq with h | h
      · exact Or.inr (by simp [h, List.mem_cons])
      · rcases ih h with h' | h'
        · exact Or.inl h'
        · exact Or.inr (List.mem_cons_of_mem _ h')

lemma mem_ddel {V : Type} {k : String} :
    ∀ {m : List (String × V)} {q : String × V}, q ∈ ddel k m → q ∈ m := by
  intro m
  induction m with
  | nil => intro q hq; simp [ddel] at hq
  | cons p rest ih =>
    intro q hq
    by_cases hk : p.1 = k
    · simp only [ddel, hk, if_pos] at hq
      exact List.mem_cons_of_mem _ hq
    · simp only [ddel, hk, if_false] at hq
      rcases List.mem_cons.1 hq with h | h
      · simp [h, List.mem_cons]
      · exact List.mem_cons_of_mem _ (ih h)

lemma dget_dinsert {V : Type} (k : String) (v : V) :
    ∀ (m : List (String × V)), dget (dinsert k v m) k = some v := by
  intro m
  induction m with
  | nil => simp [dget, dinsert]
  | cons p rest ih =>
    by_cases hk : p.1 = k
    · simp [dget, dinsert, hk]
    · simp only [dinsert, hk, if_false]
      simpa [dget, hk] using ih

lemma dget_not_mem_keys {V : Type} (k : String) :
    ∀ (m : List (String × V)), k ∉ m.map Prod.fst → dget m k = none := by
  intro m
  induction m with
  | nil => intro _; rfl
  | cons p rest ih =>
    intro hk
    simp only [List.map_cons, List.mem_cons] at hk
    push_neg at hk
    have h1 : p.1 ≠ k := fun he => hk.1 he.symm
    simpa [dget, h1] using ih hk.2

lemma dget_ddel_nodup {V : Type} (k : String) :
    ∀ (m : List (String × V)), (m.map Prod.fst).Nodup → dget (ddel k m) k = none := by
  intro m
  induction m with
  | nil => intro _; rfl
  | cons p rest ih =>
    intro hnd
    simp only [List.map_cons, List.nodup_cons] at hnd
    by_cases hk : p.1 = k
    · simp only [ddel, hk, if_pos]
      apply dget_not_mem_keys
      rw [hk] at hnd
      exact hnd.1
    · simp only [ddel, hk, if_false]
      simpa [dget, hk] using ih hnd.2

lemma dropWhile_head_false {p : Char → Bool} :
    ∀ {l : List Char} {c : Char} {t : List Char}, l.dropWhile p = c :: t → p c = false := by
  intro l
  induction l with
  | nil => intro c t h; simp [List.dropWhile] at h
  | cons a rest ih =>
    intro c t h
    by_cases ha : p a
    · simp [List.dropWhile, ha] at h
      exact ih h
    · simp [List.dropWhile, ha] at h
      rcases h with ⟨h1, _⟩
      rw [← h1]
      exact Bool.of_not_eq_true ha

lemma pySplitGo_eq_nil :
    ∀ {l acc : List Char}, pySplitGo l acc = [] → (∀ c ∈ l, pyWs c = true) ∧ acc = [] := by
  intro l
  induction l with
  | nil =>
    intro acc h
    by_cases ha : acc = []
    · exact ⟨by simp, ha⟩
    · simp [pySplitGo, ha] at h
  | cons c rest ih =>
    intro acc h
    by_cases hc : pyWs c
    · by_cases ha : acc = []
      · simp only [pySplitGo, hc, if_pos, ha, if_true] at h
        rcases ih h with ⟨hall, _⟩
        exact ⟨by simpa [hc] using hall, ha⟩
      · simp [pySplitGo, hc, ha] at h
    · simp only [pySplitGo, hc, Bool.false_eq_true, if_false] at h
      rcases ih h with ⟨_, hacc⟩
      simp at hacc

lemma pyStrip_split_ne_nil {s : String} (h : pyStrip s ≠ "") : pySplit (pyStrip s) ≠ [] := by
  intro hsplit
  have hgo : pySplitGo (pyStripL s.data) [] = [] := by
    have : (pySplitGo (pyStripL s.data) []).map (fun l => (⟨l⟩ : String)) = [] := hsplit
    exact List.map_eq_nil_iff.1 this
  have hall : ∀ c ∈ pyStripL s.data, pyWs c = true := (pySplitGo_eq_nil hgo).1
  have hM : pyStripL s.data ≠ [] := by
    intro hnil
    apply h
    show (⟨pyStripL s.data⟩ : String) = ""
    rw [hnil]
  have hB : ((s.data.dropWhile pyWs).reverse.dropWhile pyWs) ≠ [] := by
    intro hnil
    apply hM
    unfold pyStripL
    rw [hnil]
    rfl
  rcases hx : (s.data.dropWhile pyWs).reverse.dropWhile pyWs with _ | ⟨b, t⟩
  · exact hB hx
  · have hbws : pyWs b = false := dropWhile_head_false hx
    have hbmem : b ∈ pyStripL s.data := by
      unfold pyStripL
      rw [hx]
      simp
    have := hall b hbmem
    rw [hbws] at this
    exact Bool.false_ne_true this

lemma inet3_nh_fold_via :
    ∀ (nhs : List XmlElem) (m : List (String × String)),
      (∀ q ∈ m, q.1 ≠ "") → ∀ q ∈ nhs.foldl inet3_nh_step m, q.1 ≠ "" := by
  intro nhs
  induction nhs with
  | nil => intro m hm; simpa using hm
  | cons nh rest ih =>
    intro m hm
    rw [List.foldl_cons]
    apply ih
    intro q hq
    by_cases hv : pyStrip (nh.findtext "via" "") = ""
    · rw [inet3_nh_step, if_pos hv] at hq
      exact hm q hq
    · rw [inet3_nh_step, if_neg hv] at hq
      rcases mem_dinsert hq with h | h
      · rw [h]
        exact hv
      · exact hm q h

lemma inet3_rt_fold_inner (P : List (String × String) → Prop)
    (hP : ∀ nhs : List XmlElem, P (nhs.foldl inet3_nh_step [])) :
    ∀ (rts : List XmlElem) (acc : List (String × List (String × String))),
      (∀ q ∈ acc, P q.2) → ∀ q ∈ rts.foldl inet3_rt_step acc, P q.2 := by
  intro rts
  induction rts with
  | nil => intro acc hacc; simpa using hacc
  | cons rt rest ih =>
    intro acc hacc
    rw [List.foldl_cons]
    apply ih
    intro q hq
    by_cases hd : (⟨(rt.findtext "rt-destination" "").data.takeWhile (fun c => c ≠ '/')⟩ : String) = ""
    · rw [inet3_rt_step, if_pos hd] at hq
      exact hacc q hq
    · rw [inet3_rt_step, if_neg hd] at hq
      rcases mem_dinsert hq with h | h
      · rw [h]
        exact hP _
      · exact hacc q h

lemma mpls0_nh_fold_via :
    ∀ (nhs : List XmlElem) (m res : List (String × ActionLabel)),
      (∀ q ∈ m, q.1 ≠ "") → foldE mpls0_nh_step m nhs = .ok res →
      ∀ q ∈ res, q.1 ≠ "" := by
  intro nhs
  induction nhs with
  | nil =>
    intro m res hm hfold
    rw [foldE] at hfold
    cases hfold
    exact hm
  | cons nh rest ih =>
    intro m res hm hfold
    rw [foldE] at hfold
    by_cases hv : pyStrip (nh.findtext "via" "") = ""
    · rw [mpls0_nh_step, if_pos hv] at hfold
      exact ih m res hm hfold
    · by_cases hl : pyStrip (nh.findtext "mpls-label" "") = ""
      · rw [mpls0_nh_step, if_neg hv] at hfold
        simp only [hl, if_pos] at hfold
        exact ih m res hm hfold
      · rw [mpls0_nh_step, if_neg hv] at hfold
        simp only [hl, if_neg, if_false] at hfold
        rcases hsplit : pySplit (pyStrip (nh.findtext "mpls-label" "")) with _ | ⟨a, restTok⟩
        · exact absurd hsplit (pyStrip_split_ne_nil hl)
        · rw [hsplit] at hfold
          apply ih _ res _ hfold
          intro q hq
          rcases mem_dinsert hq with h | h
          · rw [h]
            exact hv
          · exact hm q h

lemma mpls0_rt_fold_inner (P : List (String × ActionLabel) → Prop)
    (hP : ∀ (nhs : List XmlElem) (inner : List (String × ActionLabel)),
      foldE mpls0_nh_step [] nhs = .ok inner → P inner) :
    ∀ (rts : List XmlElem) (acc res : List (String × List (String × ActionLabel))),
      (∀ q ∈ acc, P q.2 ∧ q.2 ≠ []) → foldE mpls0_rt_step acc rts = .ok res →
      ∀ q ∈ res, P q.2 ∧ q.2 ≠ [] := by
  intro rts
  induction rts with
  | nil =>
    intro acc res hacc hfold
    rw [foldE] at hfold
    cases hfold
    exact hacc
  | cons rt rest ih =>
    intro acc res hacc hfold
    rw [foldE] at hfold
    by_cases hd : rt.findtext "rt-destination" "" = ""
    · rw [mpls0_rt_step, if_pos hd] at hfold
      exact ih acc res hacc hfold
    · rw [mpls0_rt_step, if_neg hd] at hfold
      rcases hin : foldE mpls0_nh_step [] (findall_desc rt "nh") with e | inner
      · rw [hin] at hfold
        cases hfold
      · rw [hin] at hfold
        by_cases hemp : inner = []
        · simp only [hemp, if_pos] at hfold
          apply ih _ res _ hfold
          intro q hq
          exact hacc q (mem_ddel hq)
        · simp only [hemp, if_neg, if_false] at hfold
          apply ih _ res _ hfold
          intro q hq
          rcases mem_dinsert hq with h | h
          · rw [h]
            exact ⟨hP _ _ hin, hemp⟩
          · exact hacc q h

lemma mpls0_nh_fold_total :
    ∀ (nhs : List XmlElem) (m : List (String × ActionLabel)),
      ∃ res, foldE mpls0_nh_step m nhs = .ok res := by
  intro nhs
  induction nhs with
  | nil => intro m; exact ⟨m, rfl⟩
  | cons nh rest ih =>
    intro m
    rw [foldE]
    by_cases hv : pyStrip (nh.findtext "via" "") = ""
    · rw [mpls0_nh_step, if_pos hv]
      exact ih m
    · by_cases hl : pyStrip (nh.findtext "mpls-label" "") = ""
      · rw [mpls0_nh_step, if_neg hv]
        simp only [hl, if_pos]
        exact ih m
      · rw [mpls0_nh_step, if_neg hv]
        simp only [hl, if_neg, if_false]
        rcases hsplit : pySplit (pyStrip (nh.findtext "mpls-label" "")) with _ | ⟨a, restTok⟩
        · exact absurd hsplit (pyStrip_split_ne_nil hl)
        · exact ih _

lemma mpls0_rt_fold_total :
    ∀ (rts : List XmlElem) (m : List (String × List (String × ActionLabel))),
      ∃ res, foldE mpls0_rt_step m rts = .ok res := by
  intro rts
  induction rts with
  | nil => intro m; exact ⟨m, rfl⟩
  | cons rt rest ih =>
    intro m
    rw [foldE]
    by_cases hd : rt.findtext "rt-destination" "" = ""
    · rw [mpls0_rt_step, if_pos hd]
      exact ih m
    · rw [mpls0_rt_step, if_neg hd]
      rcases mpls0_nh_fold_total (findall_desc rt "nh") [] with ⟨inner, hin⟩
      rw [hin]
      by_cases hemp : inner = []
      · simp only [hemp, if_pos]
        exact ih _
      · simp only [hemp, if_neg, if_false]
        exact ih _

lemma process_exporter_transport_none (T : Transport)
    (C : List (String × List (String × Connection))) (E : List (String × DevMeta))
    (x : String) (dev : DevMeta) (hx : T x = none) (hdev : dget E x = some dev) :
    process_exporter T x C E = .ok (x, ⟨[], [], []⟩) := by
  simp [process_exporter, get_interface_info, get_nexthops, get_mpls_labels, hx, hdev,
    parsing_interfaces, parsing_inet3, parsing_mpls0, enrich_interfaces, enrich_nexthops]

lemma collect_foldE_ok (T : Transport)
    (C : List (String × List (String × Connection))) (E : List (String × DevMeta)) :
    ∀ (l : List (String × DevMeta)) (acc : List (String × FullExporter)),
      (∀ p ∈ l, ∃ r, process_exporter T p.1 C E = .ok (p.1, r)) →
      ∃ res, foldE (collect_step T C E) acc l = .ok res ∧
        (∀ q ∈ acc, q ∈ res) ∧
        ∀ p ∈ l, ∃ r, process_exporter T p.1 C E = .ok (p.1, r) ∧ (p.1, mkFull p.2 r) ∈ res := by
  intro l
  induction l with
  | nil =>
    intro acc _
    exact ⟨acc, rfl, fun q hq => hq, by simp⟩
  | cons p rest ih =>
    intro acc hall
    rcases hall p (List.mem_cons_self p rest) with ⟨r, hr⟩
    have hstep : collect_step T C E acc p = .ok (acc ++ [(p.1, mkFull p.2 r)]) := by
      rw [collect_step, hr]
    rcases ih (acc ++ [(p.1, mkFull p.2 r)])
        (fun q hq => hall q (List.mem_cons_of_mem _ hq)) with ⟨res, hfold, hsub, hrest⟩
    refine ⟨res, ?_, ?_, ?_⟩
    · rw [foldE, hstep]
      exact hfold
    · intro q hq
      exact hsub q (List.mem_append_left _ hq)
    · intro p' hp'
      rcases List.mem_cons.1 hp' with h | h
      · subst h
        exact ⟨r, hr, hsub _ (List.mem_append_right _ (List.mem_singleton.2 rfl))⟩
      · exact hrest p' h

/-! Claim theorems. -/

/-- C1 counterexample: on a payload that etree.fromstring cannot parse, each
of the three parsers raises XMLSyntaxError instead of returning an empty
result map, so the parsers are not total on malformed payloads. -/
theorem c1_counterexample :
    parsing_interfaces (some .malformed) = .error .xmlSyntaxError ∧
    parsing_inet3 (some .malformed) = .error .xmlSyntaxError ∧
    parsing_mpls0 (some .malformed) = .error .xmlSyntaxError :=
  ⟨rfl, rfl, rfl⟩

/-- C1 (amended): an absent payload yields an empty map from all three
parsers; parsing_inet3 and parsing_mpls0 return a result on every well-formed
payload; a malformed payload raises an XML syntax error that propagates out of
all three parsers; and parsing_interfaces can additionally raise on a
well-formed payload containing an element that is present without text. -/
theorem c1_amended :
    (parsing_interfaces none = .ok [] ∧ parsing_inet3 none = .ok [] ∧
      parsing_mpls0 none = .ok []) ∧
    (∀ t : XmlElem, ∃ r, parsing_inet3 (some (.wellFormed t)) = .ok r) ∧
    (∀ t : XmlElem, ∃ r, parsing_mpls0 (some (.wellFormed t)) = .ok r) ∧
    (parsing_interfaces (some .malformed) = .error .xmlSyntaxError ∧
      parsing_inet3 (some .malformed) = .error .xmlSyntaxError ∧
      parsing_mpls0 (some .malformed) = .error .xmlSyntaxError) ∧
    parsing_interfaces (some (.wellFormed c1ErrTree)) = .error .attributeError := by
  refine ⟨⟨rfl, rfl, rfl⟩, ?_, ?_, ⟨rfl, rfl, rfl⟩, rfl⟩
  · intro t
    exact ⟨_, rfl⟩
  · intro t
    exact mpls0_rt_fold_total (findall_desc t "rt") []

/-- C3: for every payload, no via-map produced by parsing_inet3 or
parsing_mpls0 contains an entry with an empty key: a next-hop sub-record
whose trimmed via text is empty is skipped. -/
theorem c3_no_empty_via (p : Option RawXml) :
    (∀ res, parsing_inet3 p = .ok res → ∀ q ∈ res, ∀ e ∈ q.2, e.1 ≠ "") ∧
    (∀ res, parsing_mpls0 p = .ok res → ∀ q ∈ res, ∀ e ∈ q.2, e.1 ≠ "") := by
  constructor
  · intro res h q hq e he
    cases p with
    | none =>
      simp [parsing_inet3] at h
      subst h
      simp at hq
    | some raw =>
      cases raw with
      | malformed => simp [parsing_inet3, etree_fromstring] at h
      | wellFormed t =>
        simp [parsing_inet3, etree_fromstring] at h
        subst h
        exact inet3_rt_fold_inner (fun inner => ∀ e ∈ inner, e.1 ≠ "")
          (fun nhs => inet3_nh_fold_via nhs [] (by simp)) (findall_desc t "rt") []
          (by simp) q hq e he
  · intro res h q hq e he
    cases p with
    | none =>
      simp [parsing_mpls0] at h
      subst h
      simp at hq
    | some raw =>
      cases raw with
      | malformed => simp [parsing_mpls0, etree_fromstring] at h
      | wellFormed t =>
        simp only [parsing_mpls0, etree_fromstring] at h
        exact (mpls0_rt_fold_inner (fun inner => ∀ e ∈ inner, e.1 ≠ "")
          (fun nhs inner hin => mpls0_nh_fold_via nhs [] inner (by simp) hin)
          (findall_desc t "rt") [] res (by simp) h q hq).1 e he

/-- C3 witness: the via key stored for c3Pl is non-empty. -/
theorem c3_witness : ("10.0.0.2" : String) ≠ "" :=
  (c3_no_empty_via (some (.wellFormed c3Pl))).1 [("10.1.1.1", [("10.0.0.2", "16")])] rfl
    ("10.1.1.1", [("10.0.0.2", "16")]) (List.mem_singleton.2 rfl)
    ("10.0.0.2", "16") (List.mem_singleton.2 rfl)

/-- C4: parsing_mpls0 never returns a destination whose via-map is empty:
destinations with zero surviving via entries are removed from the result. -/
theorem c4_no_empty_destination (p : Option RawXml)
    (res : List (String × List (String × ActionLabel)))
    (h : parsing_mpls0 p = .ok res) : ∀ q ∈ res, q.2 ≠ [] := by
  intro q hq
  cases p with
  | none =>
    simp [parsing_mpls0] at h
    subst h
    simp at hq
  | some raw =>
    cases raw with
    | malformed => simp [parsing_mpls0, etree_fromstring] at h
    | wellFormed t =>
      simp only [parsing_mpls0, etree_fromstring] at h
      exact (mpls0_rt_fold_inner (fun _ => True) (fun _ _ _ => trivial)
        (findall_desc t "rt") [] res (by simp) h q hq).2

/-- C4 witness: the surviving via-map of c4Pl's only destination is
non-empty. -/
theorem c4_witness :
    ([("10.0.4.2", (⟨"Swap", "44"⟩ : ActionLabel))] : List (String × ActionLabel)) ≠ [] :=
  c4_no_empty_destination (some (.wellFormed c4Pl)) [("100004", [("10.0.4.2", ⟨"Swap", "44"⟩)])]
    rfl ("100004", [("10.0.4.2", ⟨"Swap", "44"⟩)]) (List.mem_singleton.2 rfl)

/-- C5 counterexample: on label text "Push 100 Push" the code stores "100"
(str.replace removes every occurrence of "Push"), while stripping only the
leading "Push" keyword and surrounding whitespace would keep "100 Push",
so the claim's description of the transform is false on this input. -/
theorem c5_counterexample :
    parsing_inet3 (some (.wellFormed c5Pl)) = .ok [("1.1.1.1", [("10.0.0.2", "100")])] ∧
    specLabelLeadingOnly "Push 100 Push" = "100 Push" ∧
    ("100" : String) ≠ "100 Push" :=
  ⟨rfl, rfl, by decide⟩

/-- C5 (amended): for every next-hop record with a non-empty trimmed via, the
stored label is inet3_label of the raw mpls-label text: the trimmed text with
every occurrence of "Push" removed and the remainder re-trimmed whenever the
trimmed text starts with "Push", kept verbatim otherwise; in particular
"Push 100" yields "100". -/
theorem c5_amended_label :
    (∀ (m : List (String × String)) (nh : XmlElem) (via : String),
      via = pyStrip (nh.findtext "via" "") → via ≠ "" →
      dget (inet3_nh_step m nh) via = some (inet3_label (nh.findtext "mpls-label" ""))) ∧
    inet3_label "Push 100" = "100" ∧
    inet3_label "Push 100 Push" = "100" ∧
    inet3_label " 42 " = "42" ∧
    parsing_inet3 (some (.wellFormed c5Pl2)) = .ok [("1.1.1.1", [("10.0.0.2", "100")])] := by
  refine ⟨?_, rfl, rfl, rfl, rfl⟩
  intro m nh via hvia hne
  subst hvia
  rw [inet3_nh_step, if_neg hne]
  exact dget_dinsert _ _ _

/-- C5 witness: the label stored for c5Nh at its via key is the transformed
mpls-label text. -/
theorem c5_amended_witness :
    dget (inet3_nh_step [] c5Nh) "10.0.0.2" = some (inet3_label (c5Nh.findtext "mpls-label" "")) :=
  c5_amended_label.1 [] c5Nh "10.0.0.2" rfl (by decide)

/-- C6: in parsing_mpls0, a next-hop record with non-empty trimmed via and
non-empty trimmed label text stores the pair of the first whitespace token as
action and the second token (or "") as label, records with empty label text
are skipped, and in particular "Swap 300" yields action "Swap" label "300"
while "Pop" alone yields action "Pop" label "". -/
theorem c6_action_label :
    (∀ (m : List (String × ActionLabel)) (nh : XmlElem) (via rawLabel : String),
      via = pyStrip (nh.findtext "via" "") → via ≠ "" →
      rawLabel = pyStrip (nh.findtext "mpls-label" "") → rawLabel ≠ "" →
      mpls0_nh_step m nh =
        .ok (dinsert via
          ⟨(pySplit rawLabel).headD "", ((pySplit rawLabel).drop 1).headD ""⟩ m)) ∧
    (∀ (m : List (String × ActionLabel)) (nh : XmlElem),
      pyStrip (nh.findtext "via" "") ≠ "" → pyStrip (nh.findtext "mpls-label" "") = "" →
      mpls0_nh_step m nh = .ok m) ∧
    parsing_mpls0 (some (.wellFormed c6PlSwap)) =
      .ok [("100001", [("10.0.0.2", ⟨"Swap", "300"⟩)])] ∧
    parsing_mpls0 (some (.wellFormed c6PlPop)) =
      .ok [("100002", [("10.0.0.3", ⟨"Pop", ""⟩)])] := by
  refine ⟨?_, ?_, rfl, rfl⟩
  · intro m nh via rawLabel hvia hvne hlab hlne
    subst hvia
    subst hlab
    rw [mpls0_nh_step, if_neg hvne]
    simp only [hlne, if_neg, if_false]
    rcases hsplit : pySplit (pyStrip (nh.findtext "mpls-label" "")) with _ | ⟨a, restTok⟩
    · exact absurd hsplit (pyStrip_split_ne_nil hlne)
    · simp
  · intro m nh hv hl
    rw [mpls0_nh_step, if_neg hv]
    simp only [hl, if_pos]

/-- C6 witness: the value stored for c6Nh is built from the whitespace tokens
of its label text. -/
theorem c6_witness :
    mpls0_nh_step [] c6Nh =
      .ok (dinsert "10.0.0.2"
        ⟨(pySplit "Swap 300").headD "", ((pySplit "Swap 300").drop 1).headD ""⟩ []) :=
  c6_action_label.1 [] c6Nh "10.0.0.2" "Swap 300" rfl (by decide) rfl (by decide)

/-- C10: a later route-table entry with the same destination overwrites the
earlier one. In parsing_inet3, processing an rt element whose destination is
already bound in the accumulated map (to any earlier via-map) rebinds that
destination to the later entry's via-map, computed from scratch; in
parsing_mpls0, processing a duplicate rt element whose next hops leave zero
surviving via records deletes the destination from the accumulated map, so it
is absent afterwards even though the earlier entry had bound it (keys are
unique, as in a Python dict). The concrete payloads exercise both through the
full parsers, including an inet.3 overwrite by an entry with no surviving
vias. -/
theorem c10_duplicate_overwrite :
    (∀ (m : List (String × List (String × String))) (rt : XmlElem) (d : String)
      (v0 : List (String × String)),
      d = ⟨(rt.findtext "rt-destination" "").data.takeWhile (fun c => c ≠ '/')⟩ → d ≠ "" →
      dget m d = some v0 →
      dget (inet3_rt_step m rt) d = some ((findall_desc rt "nh").foldl inet3_nh_step [])) ∧
    (∀ (m : List (String × List (String × ActionLabel))) (rt : XmlElem) (d : String)
      (v0 : List (String × ActionLabel)),
      d = rt.findtext "rt-destination" "" → d ≠ "" →
      (m.map Prod.fst).Nodup → dget m d = some v0 →
      foldE mpls0_nh_step [] (findall_desc rt "nh") = .ok [] →
      mpls0_rt_step m rt = .ok (ddel d m) ∧ dget (ddel d m) d = none) ∧
    parsing_inet3 (some (.wellFormed c10PlInet)) = .ok [("10.0.0.1", [("2.2.2.2", "")])] ∧
    parsing_inet3 (some (.wellFormed c10PlInetEmpty)) = .ok [("10.0.0.1", [])] ∧
    parsing_mpls0 (some (.wellFormed c10PlMpls)) = .ok [] := by
  refine ⟨?_, ?_, rfl, rfl, rfl⟩
  · intro m rt d v0 hd hne _hbind
    subst hd
    rw [inet3_rt_step, if_neg hne]
    exact dget_dinsert _ _ _
  · intro m rt d v0 hd hne hnodup _hbind hfold
    subst hd
    refine ⟨?_, dget_ddel_nodup _ _ hnodup⟩
    rw [mpls0_rt_step, if_neg hne, hfold]
    simp

/-- C10 witness: a later rt entry for 10.0.0.1 replaces the earlier binding's
via-map, and a later mpls.0 rt entry for destination 100001 with no surviving
vias deletes the earlier binding. -/
theorem c10_witness :
    dget (inet3_rt_step [("10.0.0.1", [("1.1.1.1", "16")])] c10RtLater) "10.0.0.1" =
      some ((findall_desc c10RtLater "nh").foldl inet3_nh_step []) ∧
    mpls0_rt_step [("100001", [("1.1.1.1", ⟨"Swap", "300"⟩)])] c10RtEmpty =
      .ok (ddel "100001" [("100001", [("1.1.1.1", ⟨"Swap", "300"⟩)])]) ∧
    dget (ddel "100001" [("100001", [("1.1.1.1", (⟨"Swap", "300"⟩ : ActionLabel))])]) "100001" =
      none := by
  refine ⟨?_, ?_, ?_⟩
  · exact c10_duplicate_overwrite.1 [("10.0.0.1", [("1.1.1.1", "16")])] c10RtLater "10.0.0.1"
      [("1.1.1.1", "16")] rfl (by decide) rfl
  · exact (c10_duplicate_overwrite.2.1 [("100001", [("1.1.1.1", ⟨"Swap", "300"⟩)])] c10RtEmpty
      "100001" [("1.1.1.1", ⟨"Swap", "300"⟩)] rfl (by decide) (by decide) rfl rfl).1
  · exact (c10_duplicate_overwrite.2.1 [("100001", [("1.1.1.1", ⟨"Swap", "300"⟩)])] c10RtEmpty
      "100001" [("1.1.1.1", ⟨"Swap", "300"⟩)] rfl (by decide) (by decide) rfl rfl).2

/-- C2 counterexample: with device 10.0.0.9 answering malformed payloads, its
pipeline alone fails while 10.0.0.1's pipeline succeeds, yet
collect_and_write_data propagates the failure and the whole collection cycle
aborts with the device's parse error, so a per-device failure is not always
isolated. -/
theorem c2_counterexample :
    process_exporter c2Tbad "10.0.0.9" c2C c2E = .error .xmlSyntaxError ∧
    (∃ r, process_exporter c2Tbad "10.0.0.1" c2C c2E = .ok ("10.0.0.1", r)) ∧
    collect_and_write_data c2Tbad c2C c2E = .error .xmlSyntaxError :=
  ⟨rfl, ⟨_, rfl⟩, rfl⟩

/-- C2 (amended): a transport/session failure is isolated: when the transport
returns nothing for device x and every other device's pipeline succeeds, the
cycle completes, x contributes empty interfaces, nexthops and mpls_labels,
and every device's own pipeline result (fully populated for the reachable
ones) appears in the assembled snapshot; only a failure that escapes a
pipeline (such as a parse error) aborts the cycle. -/
theorem c2_amended (T : Transport) (C : List (String × List (String × Connection)))
    (E : List (String × DevMeta)) (x : String) (xdev : DevMeta)
    (hx : T x = none) (hxdev : dget E x = some xdev)
    (hok : ∀ p ∈ E, p.1 ≠ x → ∃ r, process_exporter T p.1 C E = .ok (p.1, r)) :
    process_exporter T x C E = .ok (x, ⟨[], [], []⟩) ∧
    ∃ res, collect_and_write_data T C E = .ok res ∧
      ∀ p ∈ E, ∃ r, process_exporter T p.1 C E = .ok (p.1, r) ∧ (p.1, mkFull p.2 r) ∈ res := by
  have h0 := process_exporter_transport_none T C E x xdev hx hxdev
  refine ⟨h0, ?_⟩
  have hall : ∀ p ∈ E, ∃ r, process_exporter T p.1 C E = .ok (p.1, r) := by
    intro p hp
    by_cases hpe : p.1 = x
    · refine ⟨⟨[], [], []⟩, ?_⟩
      rw [hpe]
      exact h0
    · exact hok p hp hpe
  rcases collect_foldE_ok T C E E [] hall with ⟨res, hfold, _, hmem⟩
  exact ⟨res, hfold, hmem⟩

/-- C2 witness: in the concrete two-device environment where 10.0.0.9's
transport is down, the cycle completes, 10.0.0.9 contributes empty result
fields and 10.0.0.1's populated result is in the snapshot. -/
theorem c2_amended_witness :
    process_exporter c2T "10.0.0.9" c2C c2E = .ok ("10.0.0.9", ⟨[], [], []⟩) ∧
    ∃ res, collect_and_write_data c2T c2C c2E = .ok res ∧
      (∃ r, process_exporter c2T "10.0.0.1" c2C c2E = .ok ("10.0.0.1", r) ∧
        ("10.0.0.1", mkFull ⟨"R1", "site1", ["emea"]⟩ r) ∈ res) ∧
      ("10.0.0.9", mkFull ⟨"R9", "site9", []⟩ ⟨[], [], []⟩) ∈ res := by
  have hok : ∀ p ∈ c2E, p.1 ≠ "10.0.0.9" →
      ∃ r, process_exporter c2T p.1 c2C c2E = .ok (p.1, r) := by
    intro p hp hne
    rcases List.mem_cons.1 hp with h1 | h2
    · subst h1
      exact ⟨_, rfl⟩
    · rcases List.mem_singleton.1 h2 with h2'
      rw [h2'] at hne
      exact absurd rfl hne
  rcases c2_amended c2T c2C c2E "10.0.0.9" ⟨"R9", "site9", []⟩ rfl rfl hok with
    ⟨h0, res, hres, hmem⟩
  refine ⟨h0, res, hres, ?_, ?_⟩
  · rcases hmem ("10.0.0.1", ⟨"R1", "site1", ["emea"]⟩) (by simp [c2E]) with ⟨r, hr, hin⟩
    exact ⟨r, hr, hin⟩
  · rcases hmem ("10.0.0.9", ⟨"R9", "site9", []⟩) (by simp [c2E]) with ⟨r, hr, hin⟩
    have heq : (⟨[], [], []⟩ : ExporterResult) = r := by
      have h2 := h0.symm.trans hr
      simp only [Except.ok.injEq, Prod.mk.injEq, true_and] at h2
      exact h2
    rw [← heq] at hin
    exact hin

/-- C7 counterexample: a well-formed payload whose logical interface has a
whitespace-only name element still emits an entry, and that entry's name is
the empty string, so emitted entries do not always have a non-empty name. -/
theorem c7_counterexample :
    parsing_interfaces (some (.wellFormed c7Pl)) = .ok [("7", ⟨"", "", ""⟩)] ∧
    IfaceRec.name ⟨"", "", ""⟩ = "" :=
  ⟨rfl, rfl⟩

/-- C7 (amended): a logical sub-record missing its name element or its
snmp-index element is skipped, not errored (provided its description text is
readable), and a record with both elements present emits an entry keyed by
the trimmed index text whose name is the trimmed name text — either of which
may be empty. -/
theorem c7_amended :
    (∀ (speed : String) (m : List (String × IfaceRec)) (logical : XmlElem) (d : String),
      iface_description logical = .ok d →
      (logical.find "name" = none ∨ logical.find "snmp-index" = none) →
      iface_logical_step speed m logical = .ok m) ∧
    (∀ (speed : String) (m : List (String × IfaceRec)) (logical : XmlElem) (d : String)
      (nameElem idxElem : XmlElem) (nt st : String),
      iface_description logical = .ok d →
      logical.find "name" = some nameElem → logical.find "snmp-index" = some idxElem →
      nameElem.text = some nt → idxElem.text = some st →
      iface_logical_step speed m logical = .ok (dinsert (pyStrip st) ⟨pyStrip nt, speed, d⟩ m)) := by
  constructor
  · intro speed m logical d hd hmiss
    rw [iface_logical_step, hd]
    rcases hmiss with h | h
    · rw [h]
    · rw [h]
      all_goals rcases logical.find "name" with _ | other <;> rfl
  · intro speed m logical d nameElem idxElem nt st hd hname hidx hnt hst
    rw [iface_logical_step, hd, hname, hidx]
    simp [textStrip, hnt, hst]

/-- C7 witness: a logical record with both elements present emits an entry
with the trimmed texts. -/
theorem c7_amended_witness :
    iface_logical_step "1g" [] c7L =
      .ok (dinsert (pyStrip " 516 ") ⟨pyStrip " ge-0/0/0.16 ", "1g", ""⟩ []) :=
  c7_amended.2 "1g" [] c7L "" (el "name" (some " ge-0/0/0.16 ") [])
    (el "snmp-index" (some " 516 ") []) " ge-0/0/0.16 " " 516 " rfl rfl rfl rfl rfl

/-- C8: every interface record in a successful process_exporter result has a
materialized connection equal to the connection-graph lookup at
(device display name, interface name) when found and the explicit empty pair
otherwise — never a missing field. -/
theorem c8_connection_materialized (T : Transport) (exporter : String)
    (C : List (String × List (String × Connection))) (E : List (String × DevMeta))
    (dev : DevMeta) (k : String) (res : ExporterResult)
    (hdev : dget E exporter = some dev)
    (h : process_exporter T exporter C E = .ok (k, res)) :
    ∀ q ∈ res.interfaces,
      q.2.connection = (dget ((dget C dev.name).getD []) q.2.name).getD ⟨"", ""⟩ := by
  intro q hq
  rcases hi : get_interface_info T exporter with e | if_data
  · rw [process_exporter, hi] at h
    cases h
  · rw [process_exporter, hi, hdev] at h
    rcases hn : get_nexthops T exporter with e | if_nhs
    · rw [hn] at h
      cases h
    · rw [hn] at h
      rcases hm : get_mpls_labels T exporter with e | mpls
      · rw [hm] at h
        cases h
      · rw [hm] at h
        simp only [Except.ok.injEq, Prod.mk.injEq] at h
        rcases h with ⟨-, hres⟩
        subst hres
        simp only [enrich_interfaces] at hq
        rcases List.mem_map.1 hq with ⟨p, hp, hpq⟩
        subst hpq
        rfl

/-- C8 witness: in the concrete 10.0.0.1 pipeline the emitted interface's
connection equals the graph lookup for (R1, ge-0/0/0.0). -/
theorem c8_witness :
    EnrichedIface.connection
        ⟨"ge-0/0/0.0", "1000mbps", "to R9", ⟨"R9", "xe-0/0/1"⟩⟩ =
      (dget ((dget c2C "R1").getD []) "ge-0/0/0.0").getD ⟨"", ""⟩ :=
  c8_connection_materialized c2T "10.0.0.1" c2C c2E ⟨"R1", "site1", ["emea"]⟩ "10.0.0.1"
    ⟨[("512", ⟨"ge-0/0/0.0", "1000mbps", "to R9", ⟨"R9", "xe-0/0/1"⟩⟩)],
      [("10.0.0.9", ⟨"R9", "site9", [], [("10.1.0.2", "16")]⟩)],
      [("16", [("10.1.0.2", ⟨"Pop", ""⟩)])]⟩
    rfl rfl ("512", ⟨"ge-0/0/0.0", "1000mbps", "to R9", ⟨"R9", "xe-0/0/1"⟩⟩)
    (List.mem_singleton.2 rfl)

end JunCollect
